import Mathlib

/-!
Verification development for the Signify iD client SDK
(`@signifyid/client`).

The development shallowly embeds the session-lifecycle state machine of
`src/context/SignifyProvider.tsx` together with the cookie utilities
(`src/utils/cookies.ts`), the URL utilities (`src/utils/url.ts`) and the
JWT helper `parseJwt` (`src/utils.ts`).

Modelling conventions:
- React `useState` cells and `useRef` cells become fields of an explicit
  `ProviderState` record; each operation of the provider becomes a pure
  function from the pre-state (plus the environment and the outcome of
  any awaited network call) to the post-state.
- The browser environment (`window`) is `Option BrowserState`: `none`
  models a server-side rendering context in which `isBrowser()` is
  `false`, `some b` models a browser with location `b.url`, cookie jar
  `b.cookieJar` and a counter of `history.replaceState` invocations.
- `fetch` is non-deterministic from the client's point of view, so an
  awaited validate call takes its outcome (`FetchOutcome`) as an input:
  a network-level rejection, or a resolution with an HTTP status and an
  optional parsed JSON body (`none` models a body that fails to parse).
- Thrown JavaScript exceptions become `Except` / `Option` values; a
  `try`/`catch` in the source becomes a `match` on that channel.
-/

namespace Signify

/-! ### Data model (`src/types.ts`) -/

/-- User data returned from session validation (`SignifyUser`). -/
structure SignifyUser where
  id : String
  email : String
  userName : Option String
  avatar : Option String
deriving Repr, DecidableEq

/-- Session data returned from the validation endpoint (`SignifySession`).
`user`, `expiresAt` and `token` are optional in the source. -/
structure SignifySession where
  valid : Bool
  user : Option SignifyUser
  expiresAt : Option String
  token : Option String
deriving Repr, DecidableEq

/-- User-provided configuration (`SignifyConfig`); optional fields model
the `?:` members of the TypeScript interface. -/
structure SignifyConfig where
  apiUrl : String
  loginUrl : String
  cookieName : Option String
  cookieMaxAge : Option Nat
  tokenParam : Option String
  debug : Option Bool
deriving Repr, DecidableEq

/-- Configuration with defaults applied (`ResolvedSignifyConfig`). -/
structure ResolvedSignifyConfig where
  apiUrl : String
  loginUrl : String
  cookieName : String
  cookieMaxAge : Nat
  tokenParam : String
  debug : Bool
deriving Repr, DecidableEq

/-- `resolveConfig` from `src/context/SignifyContext.tsx`: merge user
configuration with `DEFAULT_CONFIG` via `??`. -/
def resolveConfig (c : SignifyConfig) : ResolvedSignifyConfig :=
  { apiUrl := c.apiUrl
    loginUrl := c.loginUrl
    cookieName := c.cookieName.getD "clientSession"
    cookieMaxAge := c.cookieMaxAge.getD 86400
    tokenParam := c.tokenParam.getD "token"
    debug := c.debug.getD false }

/-! ### Browser environment: location, cookies, history -/

/-- A browser location, already split into the part before the query
string and the (percent-decoded) query parameters, in order. -/
structure UrlState where
  base : String
  params : List (String × String)
deriving Repr, DecidableEq

/-- One cookie of `document.cookie`. The source URI-encodes names and
values symmetrically on write and read, so the model may keep them
verbatim (the encoding is injective and applied on both sides). -/
structure Cookie where
  cookieKey : String
  value : String
  maxAge : Nat
deriving Repr, DecidableEq

/-- The browser environment: `window.location`, `document.cookie` and a
count of `history.replaceState` calls (to state exactly-once facts). -/
structure BrowserState where
  url : UrlState
  cookieJar : List Cookie
  historyReplaceCount : Nat
deriving Repr, DecidableEq

/-- `URLSearchParams.get`: first value bound to the name, if any. -/
def searchParamsGet : List (String × String) → String → Option String
  | [], _ => none
  | p :: rest, n => if p.1 = n then some p.2 else searchParamsGet rest n

/-- `URLSearchParams.delete`: drop every pair bound to the name. -/
def removeParam (ps : List (String × String)) (n : String) :
    List (String × String) :=
  ps.filter fun p => p.1 ≠ n

/-- `URLSearchParams.set`: replace the first binding of the name and
drop the others, or append a new binding at the end. -/
def setParamList : List (String × String) → String → String →
    List (String × String)
  | [], n, v => [(n, v)]
  | p :: rest, n, v =>
      if p.1 = n then (n, v) :: removeParam rest n
      else p :: setParamList rest n v

/-- First cookie of the jar bound to the name. -/
def findCookie : List Cookie → String → Option Cookie
  | [], _ => none
  | c :: rest, n => if c.cookieKey = n then some c else findCookie rest n

/-- Writing `document.cookie` with an existing name (same path)
overwrites that cookie; otherwise the cookie is appended. -/
def setCookieJar : List Cookie → String → String → Nat → List Cookie
  | [], n, v, a => [⟨n, v, a⟩]
  | c :: rest, n, v, a =>
      if c.cookieKey = n then ⟨n, v, a⟩ :: rest
      else c :: setCookieJar rest n v a

/-- Writing a cookie with `max-age=0` removes it from the jar. -/
def deleteCookieJar (jar : List Cookie) (n : String) : List Cookie :=
  jar.filter fun c => c.cookieKey ≠ n

/-- `setCookie` from `src/utils/cookies.ts`: no-op outside a browser. -/
def setCookie (env : Option BrowserState) (n v : String) (maxAge : Nat) :
    Option BrowserState :=
  match env with
  | none => none
  | some b => some { b with cookieJar := setCookieJar b.cookieJar n v maxAge }

/-- `getCookie` from `src/utils/cookies.ts`: `null` outside a browser,
otherwise the first matching cookie's value. -/
def getCookie (env : Option BrowserState) (n : String) : Option String :=
  match env with
  | none => none
  | some b => (findCookie b.cookieJar n).map Cookie.value

/-- `deleteCookie` from `src/utils/cookies.ts`. -/
def deleteCookie (env : Option BrowserState) (n : String) :
    Option BrowserState :=
  match env with
  | none => none
  | some b => some { b with cookieJar := deleteCookieJar b.cookieJar n }

/-- `getTokenFromUrl` from `src/utils/url.ts`:
`new URLSearchParams(window.location.search).get(paramName)`,
`null` outside a browser. -/
def getTokenFromUrl (env : Option BrowserState) (paramName : String) :
    Option String :=
  match env with
  | none => none
  | some b => searchParamsGet b.url.params paramName

/-- `cleanUrlParams` from `src/utils/url.ts`: delete each named
parameter that is present, and call `history.replaceState` once if and
only if at least one was present. -/
def cleanUrlParams (env : Option BrowserState) (names : List String) :
    Option BrowserState :=
  match env with
  | none => none
  | some b =>
      let r := names.foldl
        (fun acc n =>
          if (searchParamsGet acc.1 n).isSome then (removeParam acc.1 n, true)
          else acc)
        (b.url.params, false)
      if r.2 then
        some { b with
                url := { b.url with params := r.1 }
                historyReplaceCount := b.historyReplaceCount + 1 }
      else some b

/-! ### Provider state and the validate operation -/

/-- The provider's mutable state: the three `useState` cells plus the
two `useRef` guards (`isInitialized` is called `initDone` here, and
`isValidating` is the in-flight guard). -/
structure ProviderState where
  isAuthenticated : Bool
  isLoading : Bool
  session : Option SignifySession
  initDone : Bool
  isValidating : Bool
deriving Repr, DecidableEq

/-- The state a freshly mounted provider starts from:
`useState(false)`, `useState(true)`, `useState(null)`, refs `false`. -/
def initialProviderState : ProviderState :=
  { isAuthenticated := false
    isLoading := true
    session := none
    initDone := false
    isValidating := false }

/-- One request issued by `validateSession`. `sessionToken` models the
JSON body: `some t` for `JSON.stringify(\x7bsession_token: t\x7d)` and
`none` for `JSON.stringify(\x7b\x7d)` (the serialization of the
single-field object is injective in the token). -/
structure ValidateRequest where
  reqUrl : String
  method : String
  sessionToken : Option String
deriving Repr, DecidableEq

/-- Outcome of the awaited `fetch` of a validation: a network-level
rejection, or a response with an HTTP status and the result of
`response.json()` (`none` when the body fails to parse). -/
inductive FetchOutcome where
  | reject : FetchOutcome
  | resolve (status : Nat) (body : Option SignifySession) : FetchOutcome
deriving Repr, DecidableEq

/-- `Response.ok`: status in the inclusive range 200–299. -/
def responseOk (status : Nat) : Bool :=
  200 ≤ status && status ≤ 299

/-- JavaScript truthiness of a nullable string, as an `Option`: `null`
and `undefined` are modelled by `none`, and the empty string — also
falsy in JavaScript — collapses to `none`. -/
def truthyOpt (o : Option String) : Option String :=
  match o with
  | some s => if s = "" then none else some s
  | none => none

/-- The validate request constructed by `validateSession`. The body is
`tokenOverride ? \x7bsession_token: tokenOverride\x7d : \x7b\x7d`, so
an empty-string override — falsy in JavaScript — sends the empty
body. -/
def mkValidateRequest (cfg : ResolvedSignifyConfig)
    (tokenOverride : Option String) : ValidateRequest :=
  { reqUrl := cfg.apiUrl ++ "/api/client-auth/session/validate"
    method := "POST"
    sessionToken := truthyOpt tokenOverride }

/-- State writes performed by `validateSession` before the `await`:
`isValidating.current = true; setIsLoading(true)`. -/
def validateStartState (s : ProviderState) : ProviderState :=
  { s with isValidating := true, isLoading := true }

/-- State writes performed by `validateSession` after the `await`
resolves with outcome `o`: the `!response.ok` throw, the branch on
`data.valid`, the `catch` clause, and the `finally` clause
(`setIsLoading(false); isValidating.current = false`). -/
def validateSettle (s : ProviderState) (o : FetchOutcome) : ProviderState :=
  let s1 :=
    match o with
    | .reject => { s with isAuthenticated := false, session := none }
    | .resolve status body =>
        if responseOk status then
          match body with
          | some data =>
              if data.valid then
                { s with isAuthenticated := true, session := some data }
              else
                { s with isAuthenticated := false, session := none }
          | none => { s with isAuthenticated := false, session := none }
        else { s with isAuthenticated := false, session := none }
  { s1 with isLoading := false, isValidating := false }

/-- A full (uninterleaved) run of `validateSession(tokenOverride?)`:
the in-flight guard returns immediately with no request; otherwise the
start writes, one request, and the settle writes for outcome `o`.
The function is total: no branch propagates an exception. -/
def validateSession (cfg : ResolvedSignifyConfig) (s : ProviderState)
    (tokenOverride : Option String) (o : FetchOutcome) :
    ProviderState × List ValidateRequest :=
  if s.isValidating then (s, [])
  else (validateSettle (validateStartState s) o,
        [mkValidateRequest cfg tokenOverride])

/-! ### Character, hex and UTF-8 helpers for the browser built-ins -/

/-- Numeric value of a hexadecimal digit, case-insensitive. -/
def hexVal (c : Char) : Option Nat :=
  if '0' ≤ c ∧ c ≤ '9' then some (c.toNat - 48)
  else if 'a' ≤ c ∧ c ≤ 'f' then some (c.toNat - 87)
  else if 'A' ≤ c ∧ c ≤ 'F' then some (c.toNat - 55)
  else none

/-- Hexadecimal digit character for a value below 16. -/
def hexDigitChar (n : Nat) (upper : Bool) : Char :=
  if n < 10 then Char.ofNat (48 + n)
  else if upper then Char.ofNat (55 + n)
  else Char.ofNat (87 + n)

/-- Two-digit hexadecimal rendering of a byte. -/
def byteHex (b : Nat) (upper : Bool) : String :=
  String.mk [hexDigitChar (b / 16 % 16) upper, hexDigitChar (b % 16) upper]

/-- UTF-8 encoding of one scalar value. -/
def utf8BytesOfChar (c : Char) : List Nat :=
  let n := c.toNat
  if n < 0x80 then [n]
  else if n < 0x800 then [0xC0 + n / 64, 0x80 + n % 64]
  else if n < 0x10000 then [0xE0 + n / 4096, 0x80 + n / 64 % 64, 0x80 + n % 64]
  else [0xF0 + n / 262144, 0x80 + n / 4096 % 64, 0x80 + n / 64 % 64,
        0x80 + n % 64]

/-- UTF-8 continuation byte test. -/
def isContByte (b : Nat) : Bool :=
  0x80 ≤ b && b ≤ 0xBF

/-- Admissible second byte after a three-byte lead (excludes overlong
forms and surrogate encodings). -/
def utf8Cont3Ok (b1 b2 : Nat) : Bool :=
  if b1 = 0xE0 then 0xA0 ≤ b2 && b2 ≤ 0xBF
  else if b1 = 0xED then 0x80 ≤ b2 && b2 ≤ 0x9F
  else isContByte b2

/-- Admissible second byte after a four-byte lead (excludes overlong
forms and values above U+10FFFF). -/
def utf8Cont4Ok (b1 b2 : Nat) : Bool :=
  if b1 = 0xF0 then 0x90 ≤ b2 && b2 ≤ 0xBF
  else if b1 = 0xF4 then 0x80 ≤ b2 && b2 ≤ 0x8F
  else isContByte b2

/-- A token of a percent-encoded string: a literal character or one
percent-escaped byte. -/
inductive UriTok where
  | lit (c : Char) : UriTok
  | byteTok (b : Nat) : UriTok
deriving Repr, DecidableEq

/-- Strict tokenization used by `decodeURIComponent`: a percent sign
not followed by two hexadecimal digits is a `URIError` (`none`). -/
def uriTokens : List Char → Option (List UriTok)
  | [] => some []
  | '%' :: a :: b :: rest =>
      match hexVal a, hexVal b with
      | some ha, some hb =>
          (uriTokens rest).map fun ts => .byteTok (ha * 16 + hb) :: ts
      | _, _ => none
  | '%' :: _ => none
  | c :: rest => (uriTokens rest).map fun ts => .lit c :: ts

/-- Strict UTF-8 decoding of a token stream, as `decodeURIComponent`
performs on percent-escaped bytes: any malformed, overlong or
surrogate sequence is a `URIError` (`none`). -/
def uriDecode : List UriTok → Option (List Char)
  | [] => some []
  | .lit c :: rest => (uriDecode rest).map fun cs => c :: cs
  | .byteTok b1 :: rest =>
      if b1 < 0x80 then (uriDecode rest).map fun cs => Char.ofNat b1 :: cs
      else if b1 < 0xC2 then none
      else if b1 ≤ 0xDF then
        match rest with
        | .byteTok b2 :: rest2 =>
            if isContByte b2 then
              (uriDecode rest2).map fun cs =>
                Char.ofNat ((b1 - 0xC0) * 64 + (b2 - 0x80)) :: cs
            else none
        | _ => none
      else if b1 ≤ 0xEF then
        match rest with
        | .byteTok b2 :: .byteTok b3 :: rest2 =>
            if utf8Cont3Ok b1 b2 && isContByte b3 then
              (uriDecode rest2).map fun cs =>
                Char.ofNat ((b1 - 0xE0) * 4096 + (b2 - 0x80) * 64 +
                  (b3 - 0x80)) :: cs
            else none
        | _ => none
      else if b1 ≤ 0xF4 then
        match rest with
        | .byteTok b2 :: .byteTok b3 :: .byteTok b4 :: rest2 =>
            if utf8Cont4Ok b1 b2 && isContByte b3 && isContByte b4 then
              (uriDecode rest2).map fun cs =>
                Char.ofNat ((b1 - 0xF0) * 262144 + (b2 - 0x80) * 4096 +
                  (b3 - 0x80) * 64 + (b4 - 0x80)) :: cs
            else none
        | _ => none
      else none

/-- `decodeURIComponent`: `none` models a thrown `URIError`. -/
def decodeUriComponent (s : String) : Option String :=
  match uriTokens s.toList with
  | none => none
  | some ts => (uriDecode ts).map String.mk

/-- Lenient tokenization used by `URLSearchParams` parsing: a percent
sign not followed by two hexadecimal digits stays literal. -/
def uriTokensLenient : List Char → List UriTok
  | [] => []
  | '%' :: a :: b :: rest =>
      match hexVal a, hexVal b with
      | some ha, some hb => .byteTok (ha * 16 + hb) :: uriTokensLenient rest
      | _, _ => .lit '%' :: uriTokensLenient (a :: b :: rest)
  | '%' :: rest => .lit '%' :: uriTokensLenient rest
  | c :: rest => .lit c :: uriTokensLenient rest

/-- One step of the lenient UTF-8 decoding used by `URLSearchParams`
parsing: decode one scalar from the front of the token stream, or
yield U+FFFD for a malformed lead byte; always consumes at least one
token of a nonempty stream. -/
def uriStep : List UriTok → List Char × List UriTok
  | [] => ([], [])
  | .lit c :: rest => ([c], rest)
  | .byteTok b1 :: rest =>
      if b1 < 0x80 then ([Char.ofNat b1], rest)
      else if 0xC2 ≤ b1 ∧ b1 ≤ 0xDF then
        match rest with
        | .byteTok b2 :: rest2 =>
            if isContByte b2 then
              ([Char.ofNat ((b1 - 0xC0) * 64 + (b2 - 0x80))], rest2)
            else (['\uFFFD'], rest)
        | _ => (['\uFFFD'], rest)
      else if 0xE0 ≤ b1 ∧ b1 ≤ 0xEF then
        match rest with
        | .byteTok b2 :: .byteTok b3 :: rest2 =>
            if utf8Cont3Ok b1 b2 && isContByte b3 then
              ([Char.ofNat ((b1 - 0xE0) * 4096 + (b2 - 0x80) * 64 +
                (b3 - 0x80))], rest2)
            else (['\uFFFD'], rest)
        | _ => (['\uFFFD'], rest)
      else if 0xF0 ≤ b1 ∧ b1 ≤ 0xF4 then
        match rest with
        | .byteTok b2 :: .byteTok b3 :: .byteTok b4 :: rest2 =>
            if utf8Cont4Ok b1 b2 && isContByte b3 && isContByte b4 then
              ([Char.ofNat ((b1 - 0xF0) * 262144 + (b2 - 0x80) * 4096 +
                (b3 - 0x80) * 64 + (b4 - 0x80))], rest2)
            else (['\uFFFD'], rest)
        | _ => (['\uFFFD'], rest)
      else (['\uFFFD'], rest)

/-- Lenient UTF-8 decoding used by `URLSearchParams` parsing: iterate
`uriStep` until the token stream is exhausted (each step consumes at
least one token). -/
def uriDecodeLenient : List UriTok → List Char
  | [] => []
  | t :: rest =>
      (uriStep (t :: rest)).1 ++ uriDecodeLenient (uriStep (t :: rest)).2
termination_by ts => ts.length
decreasing_by
  rcases t with _c | b1
  · simp [uriStep]
  · simp only [uriStep]
    repeat' split
    all_goals simp only [List.length_cons]
    all_goals omega

/-- Characters serialized verbatim by `application/x-www-form-urlencoded`
(the serialization used by `URLSearchParams.toString`). -/
def formUnreservedChar (c : Char) : Bool :=
  c.isAlphanum || c = '*' || c = '-' || c = '.' || c = '_'

/-- `application/x-www-form-urlencoded` serialization of one string:
unreserved characters verbatim, space as a plus sign, everything else
as uppercase percent-escaped UTF-8 bytes. -/
def formEncode (s : String) : String :=
  String.join (s.toList.map fun c =>
    if formUnreservedChar c then String.singleton c
    else if c = ' ' then "+"
    else String.join ((utf8BytesOfChar c).map fun b => "%" ++ byteHex b true))

/-- `application/x-www-form-urlencoded` parsing of one component. -/
def formDecode (s : String) : String :=
  String.mk (uriDecodeLenient (uriTokensLenient
    (s.toList.map fun c => if c = '+' then ' ' else c)))

/-! ### URL parsing and serialization (`new URL`, `toString`) -/

/-- Split a character list at the first occurrence of a separator. -/
def splitFirstAux (sep : Char) : List Char → Option (List Char × List Char)
  | [] => none
  | x :: rest =>
      if x = sep then some ([], rest)
      else (splitFirstAux sep rest).map fun p => (x :: p.1, p.2)

/-- Parse a raw query string into decoded name–value pairs, the way
`URLSearchParams` does. -/
def parseQuery (q : String) : List (String × String) :=
  (q.splitOn "&").filterMap fun pair =>
    if pair = "" then none
    else
      match splitFirstAux '=' pair.toList with
      | none => some (formDecode pair, "")
      | some p => some (formDecode (String.mk p.1), formDecode (String.mk p.2))

/-- `new URL(s)`, restricted to the split between the pre-query part
and the query parameters. The model is exact on URLs already in the
normal form `new URL` would return (no fragment). -/
def urlOfString (s : String) : UrlState :=
  match splitFirstAux '?' s.toList with
  | none => { base := s, params := [] }
  | some p => { base := String.mk p.1, params := parseQuery (String.mk p.2) }

/-- `URL.toString()`: serialize the query parameters back, if any. -/
def urlToString (u : UrlState) : String :=
  match u.params with
  | [] => u.base
  | _ =>
      u.base ++ "?" ++ String.intercalate "&"
        (u.params.map fun p => formEncode p.1 ++ "=" ++ formEncode p.2)

/-- `url.searchParams.set(n, v)` on a structured URL. -/
def urlSetParam (u : UrlState) (n v : String) : UrlState :=
  { u with params := setParamList u.params n v }

/-- `window.location.href` of a browser environment. -/
def windowHref (b : BrowserState) : String :=
  urlToString b.url

/-- `buildLoginUrl` from `src/utils/url.ts`. The JavaScript truthiness
of `redirectUrl` is modelled explicitly: an empty string counts as
absent both in the early return and in the `redirectUrl ||
window.location.href` fallback. -/
def buildLoginUrl (env : Option BrowserState) (loginUrl : String)
    (redirectUrl : Option String) : String :=
  let rOpt : Option String :=
    match redirectUrl with
    | some r => if r = "" then none else some r
    | none => none
  if env.isNone && rOpt.isNone then loginUrl
  else
    let redirect :=
      match rOpt with
      | some r => r
      | none => (env.map windowHref).getD ""
    urlToString (urlSetParam (urlOfString loginUrl) "redirect" redirect)

/-! ### `atob` (WHATWG forgiving-base64 decoding) -/

/-- ASCII whitespace removed by forgiving-base64 decoding. -/
def b64AsciiWs (c : Char) : Bool :=
  c = ' ' || c = '\t' || c = '\n' || c = Char.ofNat 12 || c = '\r'

/-- Value of one base64 alphabet character. -/
def b64CharVal (c : Char) : Option Nat :=
  if 'A' ≤ c ∧ c ≤ 'Z' then some (c.toNat - 65)
  else if 'a' ≤ c ∧ c ≤ 'z' then some (c.toNat - 97 + 26)
  else if '0' ≤ c ∧ c ≤ '9' then some (c.toNat - 48 + 52)
  else if c = '+' then some 62
  else if c = '/' then some 63
  else none

/-- Reassemble sextets into bytes: full groups of four yield three
bytes, a trailing pair yields one byte, a trailing triple two bytes; a
single leftover sextet is impossible after the length check but is
still rejected, keeping the function total. -/
def b64Groups : List Nat → Option (List Nat)
  | [] => some []
  | [_] => none
  | [a, b] => some [a * 4 + b / 16]
  | [a, b, c] => some [a * 4 + b / 16, b % 16 * 16 + c / 4]
  | a :: b :: c :: d :: rest =>
      (b64Groups rest).map fun t =>
        (a * 4 + b / 16) :: (b % 16 * 16 + c / 4) :: (c % 4 * 64 + d) :: t

/-- `atob`: forgiving-base64 decode to a byte list; `none` models a
thrown `InvalidCharacterError`. -/
def atob (s : String) : Option (List Nat) :=
  let cs := s.toList.filter fun c => !b64AsciiWs c
  let cs1 :=
    if cs.length % 4 = 0 then
      match cs.reverse with
      | '=' :: '=' :: r => r.reverse
      | '=' :: r => r.reverse
      | _ => cs
    else cs
  if cs1.length % 4 = 1 then none
  else
    match cs1.mapM b64CharVal with
    | none => none
    | some sextets => b64Groups sextets

/-- The percent-escaping step of `parseJwt`:
`atob(base64).split("").map(c => "%" + ("00" +
c.charCodeAt(0).toString(16)).slice(-2)).join("")`. Each byte of the
latin-1 string `atob` returns becomes a two-digit lowercase hex
escape. -/
def percentEncodeBytes (bs : List Nat) : String :=
  String.join (bs.map fun b => "%" ++ byteHex b false)

/-! ### `JSON.parse` -/

/-- A parsed JSON value. Numbers keep their lexeme: their numeric
interpretation is IEEE-754 in JavaScript and plays no role in the
properties proved here. -/
inductive JsonValue where
  | nullV : JsonValue
  | boolV (b : Bool) : JsonValue
  | numV (lexeme : String) : JsonValue
  | strV (s : String) : JsonValue
  | arrV (elems : List JsonValue) : JsonValue
  | objV (fields : List (String × JsonValue)) : JsonValue

/-- JSON insignificant whitespace. -/
def jsonWsChar (c : Char) : Bool :=
  c = ' ' || c = '\t' || c = '\n' || c = '\r'

/-- Drop leading JSON whitespace. -/
def skipJsonWs : List Char → List Char
  | [] => []
  | c :: rest => if jsonWsChar c then skipJsonWs rest else c :: rest

/-- Single-character JSON string escapes. -/
def jsonEscapeChar (c : Char) : Option Char :=
  if c = '"' then some '"'
  else if c = '\\' then some '\\'
  else if c = '/' then some '/'
  else if c = 'b' then some (Char.ofNat 8)
  else if c = 'f' then some (Char.ofNat 12)
  else if c = 'n' then some '\n'
  else if c = 'r' then some '\r'
  else if c = 't' then some '\t'
  else none

/-- Scan the body of a JSON string literal after its opening quote,
returning the decoded characters and the input after the closing
quote. A `\uXXXX` escape denoting a UTF-16 surrogate code unit (which
JavaScript may pair into an astral-plane character) is modelled as
U+FFFD, since the model's characters are Unicode scalars; this does
not affect which inputs are accepted. -/
def jsonStringChars : List Char → Option (List Char × List Char)
  | [] => none
  | '"' :: rest => some ([], rest)
  | '\\' :: 'u' :: a :: b :: c :: d :: rest =>
      match hexVal a, hexVal b, hexVal c, hexVal d with
      | some ha, some hb, some hc, some hd =>
          let v := ((ha * 16 + hb) * 16 + hc) * 16 + hd
          let ch := if 0xD800 ≤ v ∧ v ≤ 0xDFFF then '�' else Char.ofNat v
          (jsonStringChars rest).map fun p => (ch :: p.1, p.2)
      | _, _, _, _ => none
  | '\\' :: e :: rest =>
      match jsonEscapeChar e with
      | some ch => (jsonStringChars rest).map fun p => (ch :: p.1, p.2)
      | none => none
  | c :: rest =>
      if c.toNat < 0x20 then none
      else (jsonStringChars rest).map fun p => (c :: p.1, p.2)

/-- Longest digit run at the front of the input. -/
def spanDigits : List Char → List Char × List Char
  | [] => ([], [])
  | c :: rest =>
      if c.isDigit then
        let r := spanDigits rest
        (c :: r.1, r.2)
      else ([], c :: rest)

/-- Lex the optional fraction and exponent of a JSON number. -/
def jsonFracExp (cs : List Char) : Option (List Char × List Char) :=
  let fr : Option (List Char × List Char) :=
    match cs with
    | '.' :: rest =>
        match spanDigits rest with
        | ([], _) => none
        | (ds, rest2) => some ('.' :: ds, rest2)
    | _ => some ([], cs)
  match fr with
  | none => none
  | some fp =>
      let ex : Option (List Char × List Char) :=
        match fp.2 with
        | c2 :: rest =>
            if c2 = 'e' ∨ c2 = 'E' then
              let sg :=
                match rest with
                | '+' :: r2 => (['+'], r2)
                | '-' :: r2 => (['-'], r2)
                | _ => (([] : List Char), rest)
              match spanDigits sg.2 with
              | ([], _) => none
              | (ds, r3) => some (c2 :: sg.1 ++ ds, r3)
            else some ([], fp.2)
        | [] => some ([], fp.2)
      ex.map fun p => (fp.1 ++ p.1, p.2)

/-- Lex one JSON number (`-? (0 | [1-9][0-9]*) frac? exp?`), returning
its lexeme and the rest of the input. -/
def jsonNumberLex (cs : List Char) : Option (List Char × List Char) :=
  let sg :=
    match cs with
    | '-' :: rest => (['-'], rest)
    | _ => (([] : List Char), cs)
  match sg.2 with
  | [] => none
  | c :: rest =>
      if c = '0' then
        (jsonFracExp rest).map fun p => (sg.1 ++ '0' :: p.1, p.2)
      else if c.isDigit then
        let r := spanDigits rest
        (jsonFracExp r.2).map fun p => (sg.1 ++ c :: r.1 ++ p.1, p.2)
      else none

/-- The opening brace character of a JSON object. -/
def braceOpenChar : Char := Char.ofNat 123

/-- The closing brace character of a JSON object. -/
def braceCloseChar : Char := Char.ofNat 125

mutual

/-- Recursive-descent JSON value parser. The fuel bounds the nesting
depth; `jsonParse` supplies more fuel than any input's depth, so the
fuel never runs out on an input the real parser accepts. -/
def jsonValueP : Nat → List Char → Option (JsonValue × List Char)
  | 0, _ => none
  | fuel + 1, cs =>
      match skipJsonWs cs with
      | 'n' :: 'u' :: 'l' :: 'l' :: rest => some (.nullV, rest)
      | 't' :: 'r' :: 'u' :: 'e' :: rest => some (.boolV true, rest)
      | 'f' :: 'a' :: 'l' :: 's' :: 'e' :: rest => some (.boolV false, rest)
      | '"' :: rest =>
          (jsonStringChars rest).map fun p => (.strV (String.mk p.1), p.2)
      | '[' :: rest =>
          (match skipJsonWs rest with
           | ']' :: rest2 => some (.arrV [], rest2)
           | rest2 => (jsonArrayItems fuel rest2).map fun p => (.arrV p.1, p.2))
      | c :: rest =>
          if c = braceOpenChar then
            match skipJsonWs rest with
            | [] => none
            | c2 :: rest2 =>
                if c2 = braceCloseChar then some (.objV [], rest2)
                else
                  (jsonObjectItems fuel (c2 :: rest2)).map fun p =>
                    (.objV p.1, p.2)
          else if c = '-' ∨ c.isDigit then
            (jsonNumberLex (c :: rest)).map fun p =>
              (.numV (String.mk p.1), p.2)
          else none
      | [] => none

/-- Parse the comma-separated items of a nonempty JSON array up to the
closing bracket. -/
def jsonArrayItems : Nat → List Char → Option (List JsonValue × List Char)
  | 0, _ => none
  | fuel + 1, cs =>
      match jsonValueP fuel cs with
      | none => none
      | some (v, rest) =>
          match skipJsonWs rest with
          | ',' :: rest2 =>
              (jsonArrayItems fuel rest2).map fun p => (v :: p.1, p.2)
          | ']' :: rest2 => some ([v], rest2)
          | _ => none

/-- Parse the comma-separated members of a nonempty JSON object up to
the closing brace. -/
def jsonObjectItems : Nat → List Char →
    Option (List (String × JsonValue) × List Char)
  | 0, _ => none
  | fuel + 1, cs =>
      match skipJsonWs cs with
      | '"' :: rest =>
          match jsonStringChars rest with
          | none => none
          | some (kcs, rest2) =>
              match skipJsonWs rest2 with
              | ':' :: rest3 =>
                  (match jsonValueP fuel rest3 with
                   | none => none
                   | some (v, rest4) =>
                       match skipJsonWs rest4 with
                       | ',' :: rest5 =>
                           (jsonObjectItems fuel rest5).map fun p =>
                             ((String.mk kcs, v) :: p.1, p.2)
                       | c :: rest5 =>
                           if c = braceCloseChar then
                             some ([(String.mk kcs, v)], rest5)
                           else none
                       | [] => none)
              | _ => none
      | _ => none

end

/-- `JSON.parse`: parse one value surrounded by optional whitespace;
`none` models a thrown `SyntaxError`. -/
def jsonParse (s : String) : Option JsonValue :=
  let cs := s.toList
  match jsonValueP (cs.length + 1) cs with
  | some (v, rest) => if (skipJsonWs rest).isEmpty then some v else none
  | none => none

/-! ### `parseJwt` (`src/utils.ts`) -/

/-- The JavaScript exception kinds the body of `parseJwt` can raise. -/
inductive JsError where
  | typeErr : JsError
  | invalidChar : JsError
  | uriErr : JsError
  | badJson : JsError
deriving Repr, DecidableEq

/-- `String.prototype.split` with a single-character separator, on the
character list of the string. -/
def splitOnChar (sep : Char) : List Char → List (List Char)
  | [] => [[]]
  | c :: rest =>
      let r := splitOnChar sep rest
      if c = sep then [] :: r
      else
        match r with
        | [] => [[c]]
        | h :: t2 => (c :: h) :: t2

/-- First `replace` of `parseJwt`: base64url dash to plus. -/
def dashToPlus (c : Char) : Char :=
  if c = '-' then '+' else c

/-- Second `replace` of `parseJwt`: base64url underscore to slash. -/
def underscoreToSlash (c : Char) : Char :=
  if c = '_' then '/' else c

/-- The `try` block of `parseJwt`, with each JavaScript exception made
explicit in the error channel: `token.split(".")[1]` being `undefined`
makes the subsequent `.replace` call throw a `TypeError`; `atob`,
`decodeURIComponent` and `JSON.parse` throw their own errors. -/
def parseJwtBody (token : String) : Except JsError JsonValue :=
  match (splitOnChar '.' token.toList).get? 1 with
  | none => .error .typeErr
  | some base64Url =>
      let base64 := (base64Url.map dashToPlus).map underscoreToSlash
      match atob (String.mk base64) with
      | none => .error .invalidChar
      | some bytes =>
          match decodeUriComponent (percentEncodeBytes bytes) with
          | none => .error .uriErr
          | some jsonPayload =>
              match jsonParse jsonPayload with
              | none => .error .badJson
              | some v => .ok v

/-- `parseJwt` from `src/utils.ts`: the surrounding `try`/`catch`
converts every raised exception into `null`. -/
def parseJwt (token : String) : Option JsonValue :=
  match parseJwtBody token with
  | .ok v => some v
  | .error _ => none

/-! ### Provider operations (`src/context/SignifyProvider.tsx`) -/

/-- The externally observed auth state (`SignifyAuthState` minus the
three function members): the `useMemo` projection of the provider's
state, with `user` computed as `session?.user ?? null`. -/
structure SignifyAuthStateView where
  isAuthenticated : Bool
  isLoading : Bool
  session : Option SignifySession
  user : Option SignifyUser
deriving Repr, DecidableEq

/-- The `authState` value built by the provider. -/
def authStateView (s : ProviderState) : SignifyAuthStateView :=
  { isAuthenticated := s.isAuthenticated
    isLoading := s.isLoading
    session := s.session
    user := s.session.bind fun d => d.user }

/-- The notification effect: `onAuthStateChange` is invoked exactly
when a callback is registered and `isLoading` is false, and receives
the current `authState`. -/
def notifyAuthStateChange (hasCallback : Bool) (s : ProviderState) :
    Option SignifyAuthStateView :=
  if hasCallback && !s.isLoading then some (authStateView s) else none

/-- Result of the mount-time effect: the provider state, the browser
environment, and the validate requests issued. -/
structure MountResult where
  state : ProviderState
  env : Option BrowserState
  requests : List ValidateRequest
deriving Repr, DecidableEq

/-- The mount-time `useEffect` of the provider: bail out on the server
or when already initialized; otherwise mark initialization done, then
either (URL token) store the cookie, clean the URL and validate with
the token as override, or (stored cookie) validate with no override,
or (neither) just clear `isLoading`. `o` is the outcome of the awaited
validate fetch, unused on paths that issue no request. The branch
conditions are the JavaScript truthiness tests `if (token)` and
`if (existingToken)`, so an empty-string URL token or cookie value is
treated as absent. -/
def initEffect (cfg : ResolvedSignifyConfig) (s : ProviderState)
    (env : Option BrowserState) (o : FetchOutcome) : MountResult :=
  match env with
  | none => { state := s, env := none, requests := [] }
  | some _ =>
      if s.initDone then { state := s, env := env, requests := [] }
      else
        let s1 := { s with initDone := true }
        match truthyOpt (getTokenFromUrl env cfg.tokenParam) with
        | some token =>
            let env1 := setCookie env cfg.cookieName token cfg.cookieMaxAge
            let env2 := cleanUrlParams env1 [cfg.tokenParam]
            let r := validateSession cfg s1 (some token) o
            { state := r.1, env := env2, requests := r.2 }
        | none =>
            match truthyOpt (getCookie env cfg.cookieName) with
            | some _ =>
                let r := validateSession cfg s1 none o
                { state := r.1, env := env, requests := r.2 }
            | none =>
                { state := { s1 with isLoading := false }, env := env,
                  requests := [] }

/-- Result of `login()`: the provider state afterwards and the
navigation target, if a navigation was performed. -/
structure LoginResult where
  state : ProviderState
  navTarget : Option String
deriving Repr, DecidableEq

/-- `login()`: warn-and-return outside a browser; otherwise navigate
to `buildLoginUrl(config.loginUrl)`. The auth state is not touched. -/
def login (cfg : ResolvedSignifyConfig) (env : Option BrowserState)
    (s : ProviderState) : LoginResult :=
  match env with
  | none => { state := s, navTarget := none }
  | some _ => { state := s, navTarget := some (buildLoginUrl env cfg.loginUrl none) }

/-- Outcome of the awaited logout fetch. -/
inductive LogoutOutcome where
  | success : LogoutOutcome
  | failure : LogoutOutcome
deriving Repr, DecidableEq

/-- Result of `logout()`: the provider state, the browser environment,
the number of requests issued to the logout endpoint, and whether a
full page reload was triggered. -/
structure LogoutResult where
  state : ProviderState
  env : Option BrowserState
  requestCount : Nat
  reloaded : Bool
deriving Repr, DecidableEq

/-- `logout()`: one POST to the logout endpoint inside `try`/`catch`
(a failure is only logged), then unconditionally clear the state,
delete the cookie, and reload the page when in a browser. Total: no
branch propagates an exception to the caller. -/
def logout (cfg : ResolvedSignifyConfig) (s : ProviderState)
    (env : Option BrowserState) (o : LogoutOutcome) : LogoutResult :=
  let cleared : ProviderState :=
    { s with isAuthenticated := false, session := none }
  match o with
  | .success =>
      { state := cleared, env := deleteCookie env cfg.cookieName,
        requestCount := 1, reloaded := env.isSome }
  | .failure =>
      { state := cleared, env := deleteCookie env cfg.cookieName,
        requestCount := 1, reloaded := env.isSome }

/-- The provider states reachable from a fresh mount, closed under the
individual state writes the source performs: the pre-await writes of
`validateSession`, its post-await writes, the initialization mark, the
`setIsLoading(false)` of the token-less mount branch, and the clearing
writes of `logout`. `login` performs no state write. -/
inductive Reachable : ProviderState → Prop where
  | start : Reachable initialProviderState
  | validateBegin (s : ProviderState) : Reachable s → s.isValidating = false →
      Reachable (validateStartState s)
  | validateEnd (s : ProviderState) (o : FetchOutcome) : Reachable s →
      s.isValidating = true → Reachable (validateSettle s o)
  | mountMark (s : ProviderState) : Reachable s →
      Reachable { s with initDone := true }
  | loadingOff (s : ProviderState) : Reachable s →
      Reachable { s with isLoading := false }
  | logoutClear (s : ProviderState) : Reachable s →
      Reachable { s with isAuthenticated := false, session := none }

/-- The documented invariant of the observable auth state. -/
def AuthInvariant (s : ProviderState) : Prop :=
  s.isAuthenticated = true → ∃ d, s.session = some d ∧ d.valid = true

/-- A sample resolved configuration, used to instantiate theorems at
concrete inputs. -/
def cfgSample : ResolvedSignifyConfig :=
  { apiUrl := "https://api.signifyid.com"
    loginUrl := "https://signifyid.com/client/login"
    cookieName := "clientSession"
    cookieMaxAge := 86400
    tokenParam := "token"
    debug := false }

/-- A sample browser environment whose location carries a URL token. -/
def browserSample : BrowserState :=
  { url := { base := "https://app.example/dashboard"
             params := [("token", "abc123")] }
    cookieJar := []
    historyReplaceCount := 0 }

/-- A sample browser environment with no URL token and no cookie. -/
def browserPlain : BrowserState :=
  { url := { base := "https://app.example/dashboard", params := [] }
    cookieJar := []
    historyReplaceCount := 0 }

/-- A sample provider state whose loading flag has settled. -/
def settledSample : ProviderState :=
  { initialProviderState with isLoading := false }

/-- A sample browser environment whose URL carries the token parameter
with an empty value (`?token=`) and whose cookie jar is empty. -/
def browserEmptyTok : BrowserState :=
  { url := { base := "https://app.example/dashboard"
             params := [("token", "")] }
    cookieJar := []
    historyReplaceCount := 0 }

/-! ## Theorems -/

/-- Deleting a query parameter removes every binding of it. -/
theorem searchParamsGet_removeParam (ps : List (String × String)) (n : String) :
    searchParamsGet (removeParam ps n) n = none := by
  induction ps with
  | nil => rfl
  | cons p rest ih =>
      by_cases h : p.1 = n
      · simpa [removeParam, List.filter_cons, h] using ih
      · simpa [removeParam, List.filter_cons, h, searchParamsGet] using ih

/-- After a cookie write, the jar's first binding of the name is the
written cookie. -/
theorem findCookie_setCookieJar (jar : List Cookie) (n v : String) (a : Nat) :
    findCookie (setCookieJar jar n v a) n =
      some { cookieKey := n, value := v, maxAge := a } := by
  induction jar with
  | nil => simp [setCookieJar, findCookie]
  | cons c rest ih =>
      by_cases h : c.cookieKey = n
      · simp [setCookieJar, h, findCookie]
      · simp [setCookieJar, h, findCookie, ih]

/-- After a cookie deletion, the jar has no binding of the name. -/
theorem findCookie_deleteCookieJar (jar : List Cookie) (n : String) :
    findCookie (deleteCookieJar jar n) n = none := by
  induction jar with
  | nil => rfl
  | cons c rest ih =>
      by_cases h : c.cookieKey = n
      · simpa [deleteCookieJar, List.filter_cons, h] using ih
      · simpa [deleteCookieJar, List.filter_cons, h, findCookie] using ih

/-- `deleteCookie` makes `getCookie` miss in any environment. -/
theorem getCookie_deleteCookie (env : Option BrowserState) (n : String) :
    getCookie (deleteCookie env n) n = none := by
  cases env with
  | none => rfl
  | some b => simp [deleteCookie, getCookie, findCookie_deleteCookieJar]

/-- C1: a `validateSession` invocation that starts while a prior
validation is in flight (the state after the prior invocation's
pre-await writes) returns immediately with the state untouched and no
request issued, while an invocation that passes the guard issues
exactly one request to the validate endpoint — so each in-flight
window carries exactly one network request. -/
theorem second_validate_in_flight_no_request
    (cfg : ResolvedSignifyConfig) (s : ProviderState)
    (t1 t2 : Option String) (o1 o2 : FetchOutcome)
    (h : s.isValidating = false) :
    validateSession cfg (validateStartState s) t2 o2 =
      (validateStartState s, []) ∧
    (validateSession cfg s t1 o1).2 = [mkValidateRequest cfg t1] := by
  constructor
  · simp [validateSession, validateStartState]
  · simp [validateSession, h]

/-- Witness for C1 at a fresh provider state. -/
theorem second_validate_in_flight_no_request_witness :
    validateSession cfgSample (validateStartState initialProviderState)
        none FetchOutcome.reject = (validateStartState initialProviderState, []) ∧
    (validateSession cfgSample initialProviderState none
        FetchOutcome.reject).2 = [mkValidateRequest cfgSample none] :=
  second_validate_in_flight_no_request cfgSample initialProviderState
    none none FetchOutcome.reject FetchOutcome.reject rfl

/-- C2: every `validateSession` invocation that passes the in-flight
guard ends — on each of the four exit paths (valid response, invalid
response, non-ok status, rejected fetch or unparsable body) — with
`isLoading = false` and the in-flight flag reset to `false`, as the
`finally` clause runs on every path. -/
theorem validate_clears_loading_and_guard
    (cfg : ResolvedSignifyConfig) (s : ProviderState)
    (t : Option String) (o : FetchOutcome)
    (h : s.isValidating = false) :
    (validateSession cfg s t o).1.isLoading = false ∧
    (validateSession cfg s t o).1.isValidating = false := by
  simp only [validateSession, h, Bool.false_eq_true, if_false]
  exact ⟨rfl, rfl⟩

/-- Witness for C2 at a fresh provider state and a rejected fetch. -/
theorem validate_clears_loading_and_guard_witness :
    (validateSession cfgSample initialProviderState none
        FetchOutcome.reject).1.isLoading = false ∧
    (validateSession cfgSample initialProviderState none
        FetchOutcome.reject).1.isValidating = false :=
  validate_clears_loading_and_guard cfgSample initialProviderState none
    FetchOutcome.reject rfl

/-- C3: a validate invocation whose fetch rejects, or whose response
has a non-success HTTP status, produces exactly the result of an
explicit `valid = false` response: `isAuthenticated = false` and
`session = none`; and being a plain value of the model, the result is
returned to the caller rather than thrown. -/
theorem validate_fail_closed
    (cfg : ResolvedSignifyConfig) (s : ProviderState) (t : Option String)
    (o : FetchOutcome) (hg : s.isValidating = false)
    (hfail : o = FetchOutcome.reject ∨
      ∃ st b, o = FetchOutcome.resolve st b ∧ responseOk st = false) :
    validateSession cfg s t o =
      validateSession cfg s t (FetchOutcome.resolve 200
        (some { valid := false, user := none, expiresAt := none,
                token := none })) ∧
    (validateSession cfg s t o).1.isAuthenticated = false ∧
    (validateSession cfg s t o).1.session = none := by
  have key : validateSettle (validateStartState s) o =
      validateSettle (validateStartState s) (FetchOutcome.resolve 200
        (some { valid := false, user := none, expiresAt := none,
                token := none })) := by
    rcases hfail with rfl | ⟨st, b, rfl, hok⟩
    · simp [validateSettle, responseOk]
    · have hok2 : ¬ (200 ≤ st ∧ st ≤ 299) := by
        intro hc
        simp [responseOk, hc.1, hc.2] at hok
      simp [validateSettle, responseOk, hok2]
  have hrun : validateSession cfg s t o =
      (validateSettle (validateStartState s) o, [mkValidateRequest cfg t]) := by
    simp [validateSession, hg]
  have hrun2 : validateSession cfg s t (FetchOutcome.resolve 200
        (some { valid := false, user := none, expiresAt := none,
                token := none })) =
      (validateSettle (validateStartState s) (FetchOutcome.resolve 200
        (some { valid := false, user := none, expiresAt := none,
                token := none })), [mkValidateRequest cfg t]) := by
    simp [validateSession, hg]
  refine ⟨?_, ?_, ?_⟩
  · rw [hrun, hrun2, key]
  · rw [hrun]
    simp only [key]
    simp [validateSettle, responseOk]
  · rw [hrun]
    simp only [key]
    simp [validateSettle, responseOk]

/-- Witness for C3 at a fresh provider state and a rejected fetch. -/
theorem validate_fail_closed_witness :
    validateSession cfgSample initialProviderState none
        FetchOutcome.reject =
      validateSession cfgSample initialProviderState none
        (FetchOutcome.resolve 200
          (some { valid := false, user := none, expiresAt := none,
                  token := none })) ∧
    (validateSession cfgSample initialProviderState none
        FetchOutcome.reject).1.isAuthenticated = false ∧
    (validateSession cfgSample initialProviderState none
        FetchOutcome.reject).1.session = none :=
  validate_fail_closed cfgSample initialProviderState none
    FetchOutcome.reject rfl (Or.inl rfl)

/-- C4 (amended: the URL token must be non-empty, because the source
guards the branch with the truthiness test `if (token)`): a mount in a
browser whose URL carries the configured token parameter with a
non-empty value `t` persists `t` under the configured cookie name with
the configured max-age, removes the token parameter from the URL with
exactly one history replacement, and issues exactly one POST to the
validate endpoint whose body carries `session_token = t`. -/
theorem mount_url_token_flow
    (cfg : ResolvedSignifyConfig) (s : ProviderState) (b : BrowserState)
    (t : String) (o : FetchOutcome)
    (hinit : s.initDone = false) (hval : s.isValidating = false)
    (htok : searchParamsGet b.url.params cfg.tokenParam = some t)
    (hne : t ≠ "") :
    ∃ b2 : BrowserState,
      (initEffect cfg s (some b) o).env = some b2 ∧
      findCookie b2.cookieJar cfg.cookieName =
        some { cookieKey := cfg.cookieName, value := t,
               maxAge := cfg.cookieMaxAge } ∧
      searchParamsGet b2.url.params cfg.tokenParam = none ∧
      b2.historyReplaceCount = b.historyReplaceCount + 1 ∧
      (initEffect cfg s (some b) o).requests =
        [{ reqUrl := cfg.apiUrl ++ "/api/client-auth/session/validate",
           method := "POST", sessionToken := some t }] := by
  have henv : (initEffect cfg s (some b) o).env =
      some { url := { base := b.url.base
                      params := removeParam b.url.params cfg.tokenParam }
             cookieJar :=
               setCookieJar b.cookieJar cfg.cookieName t cfg.cookieMaxAge
             historyReplaceCount := b.historyReplaceCount + 1 } := by
    simp [initEffect, hinit, getTokenFromUrl, htok, truthyOpt, hne, setCookie,
      cleanUrlParams]
  have hreq : (initEffect cfg s (some b) o).requests =
      [mkValidateRequest cfg (some t)] := by
    simp [initEffect, hinit, getTokenFromUrl, htok, truthyOpt, hne,
      validateSession, hval]
  refine ⟨_, henv, ?_, ?_, ?_, ?_⟩
  · exact findCookie_setCookieJar b.cookieJar cfg.cookieName t cfg.cookieMaxAge
  · exact searchParamsGet_removeParam b.url.params cfg.tokenParam
  · rfl
  · rw [hreq]
    simp [mkValidateRequest, truthyOpt, hne]

/-- Witness for C4 at the sample browser carrying `?token=abc123`. -/
theorem mount_url_token_flow_witness :
    ∃ b2 : BrowserState,
      (initEffect cfgSample initialProviderState (some browserSample)
          FetchOutcome.reject).env = some b2 ∧
      findCookie b2.cookieJar cfgSample.cookieName =
        some { cookieKey := cfgSample.cookieName, value := "abc123",
               maxAge := cfgSample.cookieMaxAge } ∧
      searchParamsGet b2.url.params cfgSample.tokenParam = none ∧
      b2.historyReplaceCount = browserSample.historyReplaceCount + 1 ∧
      (initEffect cfgSample initialProviderState (some browserSample)
          FetchOutcome.reject).requests =
        [{ reqUrl := cfgSample.apiUrl ++ "/api/client-auth/session/validate",
           method := "POST", sessionToken := some "abc123" }] :=
  mount_url_token_flow cfgSample initialProviderState browserSample "abc123"
    FetchOutcome.reject rfl rfl rfl (by decide)

/-- C4 counterexample to the unamended claim at the empty-string URL
token: at `?token=` the parameter is present with value `""`, yet the
mount — whose source tests `if (token)`, false for the empty string —
falls through to the cookie branch: it issues no request, leaves the
browser untouched (no cookie write, the token parameter still in the
URL, no history replacement), contrary to the claimed cookie
persistence, URL cleanup and single POST. -/
theorem mount_url_token_flow_counterexample :
    searchParamsGet browserEmptyTok.url.params cfgSample.tokenParam =
      some "" ∧
    findCookie browserEmptyTok.cookieJar cfgSample.cookieName = none ∧
    (initEffect cfgSample initialProviderState (some browserEmptyTok)
        FetchOutcome.reject).requests = [] ∧
    (initEffect cfgSample initialProviderState (some browserEmptyTok)
        FetchOutcome.reject).env = some browserEmptyTok :=
  ⟨rfl, rfl, rfl, rfl⟩

/-- C5: a mount in a browser with no URL token under the configured
parameter name and no cookie under the configured cookie name settles
to `isAuthenticated = false` with `isLoading = false`, issues no
network request, and leaves the browser environment untouched. -/
theorem mount_no_token_no_cookie
    (cfg : ResolvedSignifyConfig) (b : BrowserState) (o : FetchOutcome)
    (htok : searchParamsGet b.url.params cfg.tokenParam = none)
    (hcook : findCookie b.cookieJar cfg.cookieName = none) :
    (initEffect cfg initialProviderState (some b) o).state.isAuthenticated
        = false ∧
    (initEffect cfg initialProviderState (some b) o).state.isLoading = false ∧
    (initEffect cfg initialProviderState (some b) o).requests = [] ∧
    (initEffect cfg initialProviderState (some b) o).env = some b := by
  refine ⟨?_, ?_, ?_, ?_⟩ <;>
    simp [initEffect, initialProviderState, getTokenFromUrl, htok, getCookie,
      hcook, truthyOpt]

/-- Witness for C5 at the sample browser with empty query and jar. -/
theorem mount_no_token_no_cookie_witness :
    (initEffect cfgSample initialProviderState (some browserPlain)
        FetchOutcome.reject).state.isAuthenticated = false ∧
    (initEffect cfgSample initialProviderState (some browserPlain)
        FetchOutcome.reject).state.isLoading = false ∧
    (initEffect cfgSample initialProviderState (some browserPlain)
        FetchOutcome.reject).requests = [] ∧
    (initEffect cfgSample initialProviderState (some browserPlain)
        FetchOutcome.reject).env = some browserPlain :=
  mount_no_token_no_cookie cfgSample browserPlain FetchOutcome.reject rfl rfl

/-- C6: in every reachable provider state, `isAuthenticated = true`
forces a non-null session whose `valid` field is `true`, and the
exposed view's `user` field is exactly `session?.user` (null when the
session is null or carries no user). -/
theorem reachable_auth_invariant (s : ProviderState) (h : Reachable s) :
    AuthInvariant s ∧
    (authStateView s).user = s.session.bind fun d => d.user := by
  refine ⟨?_, rfl⟩
  induction h with
  | start => intro hx; exact absurd hx (by simp [initialProviderState])
  | validateBegin s2 hr hguard ih => intro hx; exact ih hx
  | validateEnd s2 o hr hguard ih =>
      rcases o with _ | ⟨st, body⟩
      · intro hx; exact absurd hx (by simp [validateSettle])
      · by_cases hok : 200 ≤ st ∧ st ≤ 299
        · rcases body with _ | data
          · intro hx
            exact absurd hx (by simp [validateSettle, responseOk, hok])
          · by_cases hv : data.valid = true
            · intro hx
              exact ⟨data, by simp [validateSettle, responseOk, hok, hv], hv⟩
            · intro hx
              exact absurd hx (by simp [validateSettle, responseOk, hok, hv])
        · intro hx; exact absurd hx (by simp [validateSettle, responseOk, hok])
  | mountMark s2 hr ih => intro hx; exact ih hx
  | loadingOff s2 hr ih => intro hx; exact ih hx
  | logoutClear s2 hr ih => intro hx; exact absurd hx (by simp)

/-- Witness for C6 at the initial state. -/
theorem reachable_auth_invariant_witness :
    AuthInvariant initialProviderState ∧
    (authStateView initialProviderState).user =
      initialProviderState.session.bind fun d => d.user :=
  reachable_auth_invariant initialProviderState Reachable.start

/-- C7: every `logout()` run — in particular one starting from an
already unauthenticated state — behaves identically whether the remote
logout request fails or succeeds (the failure is caught); it always
clears the state to `isAuthenticated = false, session = none`, deletes
the configured cookie, reloads the page exactly when in a browser, and
— being a plain value of the model — returns normally to the caller. -/
theorem logout_always_clears (cfg : ResolvedSignifyConfig)
    (s : ProviderState) (env : Option BrowserState) (o : LogoutOutcome) :
    logout cfg s env LogoutOutcome.failure =
      logout cfg s env LogoutOutcome.success ∧
    (logout cfg s env o).state.isAuthenticated = false ∧
    (logout cfg s env o).state.session = none ∧
    getCookie (logout cfg s env o).env cfg.cookieName = none ∧
    (logout cfg s env o).requestCount = 1 ∧
    (logout cfg s env o).reloaded = env.isSome := by
  rcases o with _ | _ <;>
    exact ⟨rfl, rfl, rfl, getCookie_deleteCookie env cfg.cookieName, rfl, rfl⟩

/-- C8: `login()` in a browser leaves the auth state untouched and
navigates to the configured login URL with a `redirect` parameter
equal to the URL-encoded current page URL; outside a browser it is a
no-op. The spec's scenario is checked literally: login URL
`https://id.example/login` on page `https://app.example/settings`
navigates to
`https://id.example/login?redirect=https%3A%2F%2Fapp.example%2Fsettings`. -/
theorem login_redirect_and_state (cfg : ResolvedSignifyConfig)
    (s : ProviderState) (b : BrowserState) :
    (login cfg (some b) s).state = s ∧
    (login cfg (some b) s).navTarget =
      some (buildLoginUrl (some b) cfg.loginUrl none) ∧
    login cfg none s = { state := s, navTarget := none } ∧
    buildLoginUrl
        (some { url := { base := "https://app.example/settings", params := [] }
                cookieJar := []
                historyReplaceCount := 0 })
        "https://id.example/login" none =
      "https://id.example/login?redirect=https%3A%2F%2Fapp.example%2Fsettings"
    := by
  refine ⟨rfl, rfl, rfl, ?_⟩
  rfl

/-- C9: the `onAuthStateChange` callback is only ever invoked with a
state whose `isLoading` is false: the notification effect never fires
during the loading window. -/
theorem callback_only_when_settled (hasCallback : Bool) (s : ProviderState)
    (v : SignifyAuthStateView)
    (h : notifyAuthStateChange hasCallback s = some v) :
    v.isLoading = false := by
  unfold notifyAuthStateChange at h
  by_cases hc : (hasCallback && !s.isLoading) = true
  · rw [if_pos hc] at h
    have hv : authStateView s = v := Option.some.inj h
    obtain ⟨h1, h2⟩ : hasCallback = true ∧ s.isLoading = false := by
      simpa using hc
    rw [← hv]
    exact h2
  · rw [if_neg hc] at h
    exact absurd h (by simp)

/-- Witness for C9 at a settled sample state. -/
theorem callback_only_when_settled_witness :
    notifyAuthStateChange true settledSample =
      some (authStateView settledSample) ∧
    (authStateView settledSample).isLoading = false :=
  ⟨rfl, callback_only_when_settled true settledSample
    (authStateView settledSample) rfl⟩

/-- C10: `parseJwt` is total: on every input it returns either a
decoded payload or `null` — every exception its body can raise (no
second dot-separated segment, invalid base64, invalid percent-encoded
UTF-8, invalid JSON) is absorbed by the surrounding `catch`. The
failure modes and a successful decode are also checked on concrete
inputs. -/
theorem parseJwt_total :
    (∀ token : String,
      parseJwt token = none ∨ ∃ p, parseJwt token = some p) ∧
    parseJwt "not-a-jwt" = none ∧
    parseJwt "a.!!.b" = none ∧
    parseJwt "x.AAAA.y" = none ∧
    parseJwt "x.eyJhIjoxfQ.y" =
      some (JsonValue.objV [("a", JsonValue.numV "1")]) := by
  refine ⟨fun token => ?_, ?_, ?_, ?_, ?_⟩
  · cases hp : parseJwt token with
    | none => exact Or.inl rfl
    | some v => exact Or.inr ⟨v, rfl⟩
  · rfl
  · rfl
  · rfl
  · rfl

end Signify
